import Mathlib

/-!
Verification of the esptool serial flasher core against its specification.

The definitions below are shallow embeddings of the corresponding Python
functions in esptool.py.  Byte strings are modelled as `List Nat` (each
element a byte value), file positions and register values as `Nat`,
Python's arbitrary-precision signed arithmetic as `Int` where negative
intermediate values can occur, and fallible code as `Except`.
-/

set_option maxRecDepth 4000

deriving instance DecidableEq for Except

namespace Esptool

/-! ## Frame codec (SLIP-style byte stuffing)

`ESPLoader.write` frames a packet as
`b'\xc0' + packet.replace(b'\xdb', b'\xdb\xdd').replace(b'\xc0', b'\xdb\xdc') + b'\xc0'`.
`pyReplace` models Python `bytes.replace` for a single-byte pattern. -/

def pyReplace : List Nat → Nat → List Nat → List Nat
  | [], _, _ => []
  | b :: rest, pat, rep => (if b = pat then rep else [b]) ++ pyReplace rest pat rep

namespace ESPLoader

def write (packet : List Nat) : List Nat :=
  0xC0 :: (pyReplace (pyReplace packet 0xDB [0xDB, 0xDD]) 0xC0 [0xDB, 0xDC]) ++ [0xC0]

end ESPLoader

/-- Errors raised by the `slip_reader` generator in esptool.py.  A read that
returns no bytes raises a timeout error whose message depends on whether a
packet was in progress; a byte that violates the framing raises the
invalid-head or invalid-escape error. -/
inductive SlipErr where
  | timeoutHeader : SlipErr
  | timeoutContent : SlipErr
  | invalidHead (b : Nat) : SlipErr
  | invalidEscape (b : Nat) : SlipErr
  deriving DecidableEq, Repr

/-- State machine of `slip_reader`: first argument is `partial_packet`
(`none` when waiting for a packet header), second is `in_escape`.  Returns
the first decoded packet body together with the unconsumed input bytes. -/
def slip_reader : Option (List Nat) → Bool → List Nat → Except SlipErr (List Nat × List Nat)
  | none, _, [] => .error .timeoutHeader
  | some _, _, [] => .error .timeoutContent
  | none, inEsc, b :: rest =>
    if b = 0xC0 then slip_reader (some []) inEsc rest
    else .error (.invalidHead b)
  | some p, true, b :: rest =>
    if b = 0xDC then slip_reader (some (p ++ [0xC0])) false rest
    else if b = 0xDD then slip_reader (some (p ++ [0xDB])) false rest
    else .error (.invalidEscape b)
  | some p, false, b :: rest =>
    if b = 0xDB then slip_reader (some p) true rest
    else if b = 0xC0 then .ok (p, rest)
    else slip_reader (some (p ++ [b])) false rest

/-! ## Checksum -/

def ESP_CHECKSUM_MAGIC : Nat := 0xEF

/-- `ESPLoader.checksum`: XOR-fold of the data bytes onto the running state. -/
def espChecksum (data : List Nat) (state : Nat) : Nat :=
  data.foldl (fun s b => s ^^^ b) state

/-! ## ESP8266 ROM erase-size workaround -/

namespace ESP8266ROM

def FLASH_SECTOR_SIZE : Nat := 0x1000

/-- `ESP8266ROM.get_erase_size`: workaround for the bootloader erase bug. -/
def get_erase_size (offset size : Nat) : Nat :=
  let sectors_per_block := 16
  let sector_size := FLASH_SECTOR_SIZE
  let num_sectors := (size + sector_size - 1) / sector_size
  let start_sector := offset / sector_size
  let head_sectors0 := sectors_per_block - start_sector % sectors_per_block
  let head_sectors := if num_sectors < head_sectors0 then num_sectors else head_sectors0
  if num_sectors < 2 * head_sectors then
    ((num_sectors + 1) / 2) * sector_size
  else
    (num_sectors - head_sectors) * sector_size

end ESP8266ROM

/-- Modelled from the spec sentence for comparison with the source:
`head_sectors = min(sectors_per_block - (start_sector mod sectors_per_block), num_sectors)`
with `sectors_per_block = 16`; if `num_sectors < 2*head_sectors` the erase is
`ceil(num_sectors/2) * sector_size`, otherwise `(num_sectors - head_sectors) * sector_size`. -/
def spec_get_erase_size (offset size : Nat) : Nat :=
  let sector_size := 0x1000
  let num_sectors := (size + sector_size - 1) / sector_size
  let start_sector := offset / sector_size
  let head_sectors := min (16 - start_sector % 16) num_sectors
  if num_sectors < 2 * head_sectors then
    ((num_sectors + 1) / 2) * sector_size
  else
    (num_sectors - head_sectors) * sector_size

/-! ## mask_to_shift and update_reg

The Python `_mask_to_shift` is a `while mask & 0x1 == 0` loop; it does not
terminate for `mask = 0`.  We model it with explicit fuel bounding the
number of loop iterations: `none` means the loop did not finish within the
given number of iterations. -/

def mask_to_shift (fuel mask : Nat) : Option Nat :=
  if mask &&& 1 = 1 then some 0
  else
    match fuel with
    | 0 => none
    | fuel' + 1 => (mask_to_shift fuel' (mask >>> 1)).map (· + 1)

/-- `ESPLoader.update_reg` value computation: `val &= ~mask` on Python's
arbitrary-precision integers clears exactly the bits of `mask`, which is
`Nat.ldiff`; then `val |= (new_val << shift) & mask`.  The register
read/write are external I/O; `old` is the value read from the register and
the result is the value written back. -/
def update_reg (fuel old mask new_val : Nat) : Option Nat :=
  (mask_to_shift fuel mask).map fun shift =>
    Nat.ldiff old mask ||| ((new_val <<< shift) &&& mask)

/-! ## check_command -/

/-- Result of a successful `check_command`: either the data bytes preceding
the status trailer, or the `value` field of the reply header. -/
inductive CmdResult where
  | data (d : List Nat) : CmdResult
  | value (v : Nat) : CmdResult
  deriving DecidableEq, Repr

/-- Errors raised by `check_command`: a status trailer shorter than the
variant's status length, or a nonzero first status byte. -/
inductive CmdErr where
  | protocol (got : Nat) : CmdErr
  | remote (status : List Nat) : CmdErr
  deriving DecidableEq, Repr

/-- `ESPLoader.check_command` after a successful `command` exchange: `val`
and `data` are the reply header value and body, `statusLen` the variant's
`STATUS_BYTES_LENGTH` (2 or 4; `List.headD` models `status_bytes[0]`, which
for `statusLen > 0` never falls off the end here). -/
def check_command (val : Nat) (data : List Nat) (statusLen : Nat) : Except CmdErr CmdResult :=
  if data.length < statusLen then .error (.protocol data.length)
  else
    let status_bytes := data.drop (data.length - statusLen)
    if status_bytes.headD 0 ≠ 0 then .error (.remote status_bytes)
    else if statusLen < data.length then .ok (.data (data.take (data.length - statusLen)))
    else .ok (.value val)

/-- Modelled from the spec sentence for comparison with the source: fails
with `Protocol` when shorter than `status_len`, fails with
`Remote(status_bytes)` when the first status byte is nonzero, returns the
data portion preceding the status bytes if non-empty, otherwise the reply
value field. -/
def spec_check_command (val : Nat) (data : List Nat) (statusLen : Nat) : Except CmdErr CmdResult :=
  if data.length < statusLen then .error (.protocol data.length)
  else
    let status_bytes := data.drop (data.length - statusLen)
    if status_bytes.headD 0 ≠ 0 then .error (.remote status_bytes)
    else if data.take (data.length - statusLen) ≠ [] then
      .ok (.data (data.take (data.length - statusLen)))
    else .ok (.value val)

/-! ## Image segments and the firmware image writers -/

/-- Little-endian encodings used by `struct.pack`. -/
def u32le (n : Nat) : List Nat :=
  [n % 256, n / 256 % 256, n / 65536 % 256, n / 16777216 % 256]

def u8 (n : Nat) : List Nat := [n % 256]

/-- `pad_to`: pad to the next alignment boundary. -/
def pad_to (data : List Nat) (alignment : Nat) (padChar : Nat) : List Nat :=
  let pad_mod := data.length % alignment
  if pad_mod ≠ 0 then data ++ List.replicate (alignment - pad_mod) padChar else data

/-- `ImageSegment`: a load address and the segment bytes. -/
structure ImageSegment where
  addr : Nat
  data : List Nat
  deriving DecidableEq, Repr

/-- The `ImageSegment` constructor pads the data of every segment with a
nonzero load address to a 4-byte multiple with zero bytes. -/
def mkImageSegment (addr : Nat) (data : List Nat) : ImageSegment :=
  if addr ≠ 0 then { addr := addr, data := pad_to data 4 0 }
  else { addr := addr, data := data }

/-- `ImageSegment.split_image`: the returned segment takes `splitLen` bytes
from the front of the data (keeping the original address); the remaining
bytes stay behind with the address advanced by `splitLen`. -/
def split_image (seg : ImageSegment) (splitLen : Nat) : ImageSegment × ImageSegment :=
  ({ addr := seg.addr, data := seg.data.take splitLen },
   { addr := seg.addr + splitLen, data := seg.data.drop splitLen })

def SEG_HEADER_LEN : Nat := 8
def SHA256_DIGEST_LEN : Nat := 32

/-- Failure modes of the image writers. -/
inductive SaveErr where
  | shaPatchBoundary (elfOff filePos segLen : Nat) : SaveErr
  | shaPatchNonzero (elfOff : Nat) : SaveErr
  | shaLenAssert : SaveErr
  | multipleIrom (n : Nat) : SaveErr
  | duplicateMapping (addr lastAddr : Nat) : SaveErr
  | outOfFuel : SaveErr
  | alignAssert : SaveErr
  | securePadNeedsDigest : SaveErr
  | securePadAssert : SaveErr
  deriving DecidableEq, Repr

/-- `BaseFirmwareImage.maybe_patch_segment_data`: patch the ELF SHA-256 into
the segment data when the configured file offset falls inside this segment's
span as measured by the code (`file_pos <= offset < file_pos + len(data)`,
where `file_pos` is where the 8-byte segment header will be written). -/
def maybe_patch_segment_data (elfShaOff : Nat) (elfSha : List Nat) (filePos : Nat)
    (segmentData : List Nat) : Except SaveErr (List Nat) :=
  let segmentLen := segmentData.length
  if filePos ≤ elfShaOff ∧ elfShaOff < filePos + segmentLen then
    let patchOffset := elfShaOff - filePos
    if patchOffset < SEG_HEADER_LEN ∨ segmentLen < patchOffset + SHA256_DIGEST_LEN then
      .error (.shaPatchBoundary elfShaOff filePos segmentLen)
    else
      let p := patchOffset - SEG_HEADER_LEN
      if (segmentData.drop p).take SHA256_DIGEST_LEN ≠ List.replicate SHA256_DIGEST_LEN 0 then
        .error (.shaPatchNonzero elfShaOff)
      else if elfSha.length ≠ SHA256_DIGEST_LEN then .error .shaLenAssert
      else .ok (segmentData.take p ++ elfSha ++ segmentData.drop (p + SHA256_DIGEST_LEN))
  else .ok segmentData

/-- `BaseFirmwareImage.save_segment`: patch if needed, then write the 8-byte
segment header (address, length) followed by the data, folding the data into
the running checksum. Returns the bytes written and the new checksum. -/
def save_segment_bytes (elfShaOff : Nat) (elfSha : List Nat) (filePos : Nat)
    (seg : ImageSegment) (checksum : Nat) : Except SaveErr (List Nat × Nat) :=
  match maybe_patch_segment_data elfShaOff elfSha filePos seg.data with
  | .error e => .error e
  | .ok d => .ok (u32le seg.addr ++ u32le d.length ++ d, espChecksum d checksum)

namespace ESP8266ROM

def IROM_MAP_START : Nat := 0x40200000
def IROM_MAP_END : Nat := 0x40300000

end ESP8266ROM

/-- `BaseFirmwareImage.is_irom_addr` (ESP8266). -/
def is_irom_addr (addr : Nat) : Bool :=
  decide (ESP8266ROM.IROM_MAP_START ≤ addr ∧ addr < ESP8266ROM.IROM_MAP_END)

/-- `BaseFirmwareImage.write_common_header`:
`struct.pack('<BBBBI', 0xE9, len(segments), flash_mode, flash_size_freq, entrypoint)`. -/
def write_common_header (segCount flashMode sizeFreq entry : Nat) : List Nat :=
  [0xE9, segCount % 256, flashMode % 256, sizeFreq % 256] ++ u32le entry

/-- `BaseFirmwareImage.append_checksum` preceded by `align_file_position(f, 16)`:
seek forward `15 - pos % 16` bytes (the file zero-fills the gap) and write the
checksum byte there, so it lands on the last byte of a 16-byte aligned block. -/
def append_checksum_bytes (pos checksum : Nat) (out : List Nat) : List Nat :=
  let align := (16 - 1) - pos % 16
  out ++ List.replicate align 0 ++ u8 checksum

/-- The per-segment write loop of `ESP8266ROMFirmwareImage.save`, threading
file position and checksum. -/
def saveSegments (elfShaOff : Nat) (elfSha : List Nat) :
    List ImageSegment → Nat → Nat → List Nat → Except SaveErr (List Nat × Nat × Nat)
  | [], pos, checksum, out => .ok (out, pos, checksum)
  | seg :: rest, pos, checksum, out =>
    match save_segment_bytes elfShaOff elfSha pos seg checksum with
    | .error e => .error e
    | .ok (bytes, ck) =>
      saveSegments elfShaOff elfSha rest (pos + bytes.length) ck (out ++ bytes)

/-- `ESP8266ROMFirmwareImage.save`, main (non-IROM) output file: common
header for the non-IROM segments, each segment, then alignment padding and
the XOR checksum seeded with `0xEF`.  Raises when more than one segment lies
in the IROM range (`get_irom_segment`). -/
def esp8266_save_v1 (entry flashMode sizeFreq elfShaOff : Nat) (elfSha : List Nat)
    (segments : List ImageSegment) : Except SaveErr (List Nat) :=
  let iromCount := (segments.filter (fun s => is_irom_addr s.addr)).length
  if 1 < iromCount then .error (.multipleIrom iromCount)
  else
    let normal := segments.filter (fun s => ¬ is_irom_addr s.addr)
    let header := write_common_header normal.length flashMode sizeFreq entry
    match saveSegments elfShaOff elfSha normal 8 ESP_CHECKSUM_MAGIC header with
    | .error e => .error e
    | .ok (out, pos, checksum) => .ok (append_checksum_bytes pos checksum out)

/-! ## ESP32-family image save (newer-variant layout) -/

def IROM_ALIGN : Nat := 65536

/-- IROM/DROM map bounds of a chip variant (`ROM_LOADER` class constants). -/
structure Chip where
  iromMapStart : Nat
  iromMapEnd : Nat
  dromMapStart : Nat
  dromMapEnd : Nat
  deriving DecidableEq, Repr

/-- `ESP32FirmwareImage.is_flash_addr`. -/
def is_flash_addr (c : Chip) (addr : Nat) : Bool :=
  decide ((c.iromMapStart ≤ addr ∧ addr < c.iromMapEnd) ∨
    (c.dromMapStart ≤ addr ∧ addr < c.dromMapEnd))

/-- `ESP32ROM` memory-map bounds. -/
def ESP32ROM_chip : Chip :=
  { iromMapStart := 0x400d0000, iromMapEnd := 0x40400000,
    dromMapStart := 0x3F400000, dromMapEnd := 0x3F800000 }

/-- Stable insertion into an address-sorted list: an element is placed before
the first element with a strictly larger address, and before elements with an
equal address only when it preceded them (the element being inserted comes
from an earlier list position than the already-inserted ones). -/
def insertByAddr (a : ImageSegment) : List ImageSegment → List ImageSegment
  | [] => [a]
  | x :: xs => if x.addr < a.addr then x :: insertByAddr a xs else a :: x :: xs

/-- Python's stable `sorted(self.segments, key=lambda s: s.addr)`.  A stable
sort by key has a unique result, so this structural insertion sort computes
it. -/
def sortByAddr : List ImageSegment → List ImageSegment
  | [] => []
  | x :: xs => insertByAddr x (sortByAddr xs)

/-- `get_alignment_data_needed` inside `ESP32FirmwareImage.save`.
Intermediate values can be negative in Python, so this is computed over
`Int` (both Python `%` and `Int.emod` return a value in `[0, modulus)` for a
positive modulus). -/
def get_alignment_data_needed (pos addr : Nat) : Int :=
  let align_past : Int := (addr % IROM_ALIGN : Nat) - (SEG_HEADER_LEN : Int)
  let pad_len : Int := ((IROM_ALIGN : Int) - (pos % IROM_ALIGN : Nat)) + align_past
  if pad_len = 0 ∨ pad_len = (IROM_ALIGN : Int) then 0
  else
    let pad_len2 := pad_len - (SEG_HEADER_LEN : Int)
    if pad_len2 < 0 then pad_len2 + (IROM_ALIGN : Int) else pad_len2

inductive PadKind where
  | ramSplit : PadKind
  | synthPad : PadKind
  deriving DecidableEq, Repr

/-- Record of one pad decision taken by the flash packing loop: the needed
pad length, whether a RAM segment was available at that moment, and whether
the pad was filled by splitting a RAM segment or by a synthesized zero-data
segment at address 0. -/
structure PadEvent where
  padLen : Nat
  ramAvail : Bool
  kind : PadKind
  deriving DecidableEq, Repr

/-- In-memory file state of `ESP32FirmwareImage.save`, plus instrumentation:
`placements` records `(load address, data file offset)` for each flash
segment written, `padEvents` the pad decisions. -/
structure SaveState where
  pos : Nat
  checksum : Nat
  out : List Nat
  placements : List (Nat × Nat)
  padEvents : List PadEvent
  totalSegments : Nat
  deriving DecidableEq, Repr

/-- One `save_segment` call inside `ESP32FirmwareImage.save`, threading the
in-memory file state (each call site also increments `total_segments`). -/
def save_segment_st (elfShaOff : Nat) (elfSha : List Nat) (st : SaveState)
    (seg : ImageSegment) : Except SaveErr SaveState :=
  match maybe_patch_segment_data elfShaOff elfSha st.pos seg.data with
  | .error e => .error e
  | .ok d => .ok { st with
      pos := st.pos + 8 + d.length,
      out := st.out ++ u32le seg.addr ++ u32le d.length ++ d,
      checksum := espChecksum d st.checksum,
      totalSegments := st.totalSegments + 1 }

/-- `ESP32FirmwareImage.save_flash_segment`: pad the segment data so that the
segment does not end fewer than `0x24` bytes past a 64 KiB page boundary
(ESP-IDF second-stage bootloader workaround), then save it. -/
def save_flash_segment_st (elfShaOff : Nat) (elfSha : List Nat) (st : SaveState)
    (seg : ImageSegment) : Except SaveErr SaveState :=
  let segment_end_pos := st.pos + seg.data.length + SEG_HEADER_LEN
  let segment_len_remainder := segment_end_pos % IROM_ALIGN
  let seg2 := if segment_len_remainder < 0x24 then
      { seg with data := seg.data ++ List.replicate (0x24 - segment_len_remainder) 0 }
    else seg
  save_segment_st elfShaOff elfSha st seg2

/-- The flash-segment packing loop of `ESP32FirmwareImage.save`
(`while len(flash_segments) > 0`), with fuel bounding the number of loop
iterations (`outOfFuel` produces no image).  The source's
`assert (f.tell() + 8) % IROM_ALIGN == segment.addr % IROM_ALIGN` before each
flash segment write is modelled as a check that fails the save.  A successful
run returns the final state and the remaining RAM segments. -/
def saveLoop (elfShaOff : Nat) (elfSha : List Nat) :
    Nat → List ImageSegment → List ImageSegment → SaveState →
    Except SaveErr (SaveState × List ImageSegment)
  | _, [], ram, st => .ok (st, ram)
  | 0, _ :: _, _, _ => .error .outOfFuel
  | fuel + 1, seg :: fl, ram, st =>
    let padI := get_alignment_data_needed st.pos seg.addr
    if 0 < padI then
      let pad_len := padI.toNat
      match ram with
      | r :: rs =>
        if SEG_HEADER_LEN < pad_len then
          let (padSeg, rest) := split_image r pad_len
          let ram2 := if rest.data.length = 0 then rs else rest :: rs
          match save_segment_st elfShaOff elfSha st padSeg with
          | .error e => .error e
          | .ok st2 =>
            saveLoop elfShaOff elfSha fuel (seg :: fl) ram2
              { st2 with padEvents := st2.padEvents ++ [⟨pad_len, true, .ramSplit⟩] }
        else
          match save_segment_st elfShaOff elfSha st ⟨0, List.replicate pad_len 0⟩ with
          | .error e => .error e
          | .ok st2 =>
            saveLoop elfShaOff elfSha fuel (seg :: fl) (r :: rs)
              { st2 with padEvents := st2.padEvents ++ [⟨pad_len, true, .synthPad⟩] }
      | [] =>
        match save_segment_st elfShaOff elfSha st ⟨0, List.replicate pad_len 0⟩ with
        | .error e => .error e
        | .ok st2 =>
          saveLoop elfShaOff elfSha fuel (seg :: fl) []
            { st2 with padEvents := st2.padEvents ++ [⟨pad_len, false, .synthPad⟩] }
    else
      if (st.pos + 8) % IROM_ALIGN = seg.addr % IROM_ALIGN then
        match save_flash_segment_st elfShaOff elfSha st seg with
        | .error e => .error e
        | .ok st2 =>
          saveLoop elfShaOff elfSha fuel fl ram
            { st2 with placements := st2.placements ++ [(seg.addr, st.pos + 8)] }
      else .error .alignAssert

/-- The tail loop writing the remaining RAM segments. -/
def saveRam (elfShaOff : Nat) (elfSha : List Nat) :
    List ImageSegment → SaveState → Except SaveErr SaveState
  | [], st => .ok st
  | seg :: rest, st =>
    match save_segment_st elfShaOff elfSha st seg with
    | .error e => .error e
    | .ok st2 => saveRam elfShaOff elfSha rest st2

/-- The `secure_pad` attribute: unset, Secure Boot V1 style, or V2 style. -/
inductive SecurePad where
  | off : SecurePad
  | v1 : SecurePad
  | v2 : SecurePad
  deriving DecidableEq, Repr

def space_after_checksum : SecurePad → Nat
  | .off => 0
  | .v1 => 32 + 4 + 64 + 12
  | .v2 => 32

/-- Fields of the 16-byte extended header of newer-variant images. -/
structure ExtHeader where
  wp_pin : Nat
  clk_drv : Nat
  q_drv : Nat
  d_drv : Nat
  cs_drv : Nat
  hd_drv : Nat
  wp_drv : Nat
  chip_id : Nat
  min_rev : Nat
  append_digest : Bool
  deriving DecidableEq, Repr

def join_byte (ln hn : Nat) : Nat := (ln &&& 0x0F) + ((hn &&& 0x0F) <<< 4)

/-- `ESP32FirmwareImage.save_extended_header`:
`struct.pack('<BBBBHB' + 'B'*8 + 'B', ...)`. -/
def save_extended_header (e : ExtHeader) : List Nat :=
  [e.wp_pin % 256, join_byte e.clk_drv e.q_drv, join_byte e.d_drv e.cs_drv,
   join_byte e.hd_drv e.wp_drv, e.chip_id % 256, e.chip_id / 256 % 256, e.min_rev % 256]
  ++ List.replicate 8 0 ++ [if e.append_digest then 1 else 0]

/-- The duplicate 64 KiB flash-mapping check over consecutive pairs of the
sorted flash segments; returns the offending pair of addresses. -/
def hasDuplicateMapping : List ImageSegment → Option (Nat × Nat)
  | a :: b :: t =>
    if b.addr / IROM_ALIGN = a.addr / IROM_ALIGN then some (b.addr, a.addr)
    else hasDuplicateMapping (b :: t)
  | _ => none

/-- Result of a successful `ESP32FirmwareImage.save`: the file bytes plus the
instrumented placements and pad decisions. -/
structure Save32Out where
  bytes : List Nat
  placements : List (Nat × Nat)
  padEvents : List PadEvent
  deriving DecidableEq, Repr

/-- The `secure_pad` stage of `ESP32FirmwareImage.save`: pad the image so
that after signing it ends on a 64 KiB boundary, reserving 16 bytes for the
aligned checksum plus the mode-specific space after it.  The inner
subtraction can go negative in Python, hence the `Int` modulus. -/
def securePadStage (elfShaOff : Nat) (elfSha : List Nat) (securePad : SecurePad)
    (appendDigest : Bool) (st2 : SaveState) : Except SaveErr SaveState :=
  match securePad with
  | .off => .ok st2
  | sp =>
    if ¬ appendDigest then .error .securePadNeedsDigest
    else
      let align_past := (st2.pos + SEG_HEADER_LEN) % IROM_ALIGN
      let checksum_space := 16
      let pad_len : Nat :=
        (((IROM_ALIGN : Int) - align_past - checksum_space - space_after_checksum sp)
          % (IROM_ALIGN : Int)).toNat
      save_segment_st elfShaOff elfSha st2 ⟨0, List.replicate pad_len 0⟩

/-- End of `ESP32FirmwareImage.save`: aligned checksum byte, the secure-pad
length assertion, the segment-count patch at file offset 1, and the optional
appended SHA-256 of the whole file. -/
def finishSave (securePad : SecurePad) (appendDigest : Bool) (sha256 : List Nat → List Nat)
    (st3 : SaveState) : Except SaveErr Save32Out :=
  let align := 15 - st3.pos % 16
  let outCk := st3.out ++ List.replicate align 0 ++ u8 st3.checksum
  let image_length := st3.pos + align + 1
  if securePad ≠ .off ∧ (image_length + space_after_checksum securePad) % IROM_ALIGN ≠ 0 then
    .error .securePadAssert
  else
    let out2 := outCk.set 1 (st3.totalSegments % 256)
    let out3 := if appendDigest then out2 ++ sha256 out2 else out2
    .ok { bytes := out3, placements := st3.placements, padEvents := st3.padEvents }

/-- `ESP32FirmwareImage.save`: common header (with the original segment
count, later patched), extended header, flash-segment packing loop over the
address-sorted segments split into flash-mapped and RAM groups, remaining
RAM segments, optional secure padding, 16-byte-aligned checksum byte, the
segment-count patch at file offset 1, and the optional appended SHA-256 of
the whole file.  The digest is an external library call (`hashlib`), passed
in as the function `sha256`. -/
def ESP32FirmwareImage_save (chip : Chip) (entry flashMode sizeFreq : Nat) (ext : ExtHeader)
    (securePad : SecurePad) (elfShaOff : Nat) (elfSha : List Nat)
    (sha256 : List Nat → List Nat) (fuel : Nat) (segments : List ImageSegment) :
    Except SaveErr Save32Out :=
  match hasDuplicateMapping
      ((sortByAddr segments).filter (fun s => is_flash_addr chip s.addr)) with
  | some (a, la) => .error (.duplicateMapping a la)
  | none =>
    match saveLoop elfShaOff elfSha fuel
        ((sortByAddr segments).filter (fun s => is_flash_addr chip s.addr))
        ((sortByAddr segments).filter (fun s => ¬ is_flash_addr chip s.addr))
        ⟨24, ESP_CHECKSUM_MAGIC,
          write_common_header segments.length flashMode sizeFreq entry ++
            save_extended_header ext, [], [], 0⟩ with
    | .error e => .error e
    | .ok (st1, ramRest) =>
      match saveRam elfShaOff elfSha ramRest st1 with
      | .error e => .error e
      | .ok st2 =>
        match securePadStage elfShaOff elfSha securePad ext.append_digest st2 with
        | .error e => .error e
        | .ok st3 => finishSave securePad ext.append_digest sha256 st3

/-! ## Helper lemmas: framing round trip -/

/-- Per-byte escape: the composition of the two sequential byte replaces in
`ESPLoader.write` acts independently on each byte, since the first replace
never introduces a `0xC0`. -/
def escByte (b : Nat) : List Nat :=
  if b = 0xDB then [0xDB, 0xDD] else if b = 0xC0 then [0xDB, 0xDC] else [b]

def escList : List Nat → List Nat
  | [] => []
  | b :: rest => escByte b ++ escList rest

lemma pyReplace_append (a b : List Nat) (pat : Nat) (rep : List Nat) :
    pyReplace (a ++ b) pat rep = pyReplace a pat rep ++ pyReplace b pat rep := by
  induction a with
  | nil => rfl
  | cons x xs ih => simp [pyReplace, ih, List.append_assoc]

lemma double_replace_eq_escList (l : List Nat) :
    pyReplace (pyReplace l 0xDB [0xDB, 0xDD]) 0xC0 [0xDB, 0xDC] = escList l := by
  induction l with
  | nil => rfl
  | cons b rest ih =>
    by_cases h1 : b = 0xDB
    · subst h1
      simp [pyReplace, pyReplace_append, escList, escByte, ih]
    · by_cases h2 : b = 0xC0
      · subst h2
        simp [pyReplace, pyReplace_append, escList, escByte, ih]
      · simp [pyReplace, pyReplace_append, escList, escByte, h1, h2, ih]

lemma slip_reader_escList (l : List Nat) : ∀ acc rest,
    slip_reader (some acc) false (escList l ++ 0xC0 :: rest) = .ok (acc ++ l, rest) := by
  induction l with
  | nil => intro acc rest; simp [escList, slip_reader]
  | cons b bs ih =>
    intro acc rest
    by_cases h1 : b = 0xDB
    · subst h1
      have h3 := ih (acc ++ [0xDB]) rest
      rw [List.append_assoc] at h3
      simp only [List.cons_append, List.nil_append] at h3
      simp [escList, escByte, slip_reader, h3]
    · by_cases h2 : b = 0xC0
      · subst h2
        have h3 := ih (acc ++ [0xC0]) rest
        rw [List.append_assoc] at h3
        simp only [List.cons_append, List.nil_append] at h3
        simp [escList, escByte, slip_reader, h1, h3]
      · have h3 := ih (acc ++ [b]) rest
        rw [List.append_assoc] at h3
        simp only [List.cons_append, List.nil_append] at h3
        simp [escList, escByte, slip_reader, h1, h2, h3]

/-- C1: for every byte sequence `b`, decoding the framed output of the writer
yields `b` again: `ESPLoader.write` delimits `b` with `0xC0` bytes and escapes
`0xDB` as `0xDB 0xDD` and `0xC0` as `0xDB 0xDC`, and `slip_reader` decoding of
that frame returns exactly `b` (with no input left over), including when `b`
contains `0xC0` or `0xDB` bytes. -/
theorem slip_roundtrip (packet : List Nat) :
    slip_reader none false (ESPLoader.write packet) = .ok (packet, []) := by
  unfold ESPLoader.write
  rw [double_replace_eq_escList]
  have h := slip_reader_escList packet [] []
  simpa [slip_reader] using h

/-- C9: when the frame reader is waiting for a packet header, any byte other
than the `0xC0` start delimiter makes decoding fail immediately with the
invalid-head-of-packet error; junk between frames is never silently skipped. -/
theorem slip_reader_invalid_head (b : Nat) (rest : List Nat) (h : b ≠ 0xC0) :
    slip_reader none false (b :: rest) = .error (.invalidHead b) := by
  simp [slip_reader, h]

theorem slip_reader_invalid_head_witness :
    (0x41 : Nat) ≠ 0xC0 ∧ slip_reader none false [0x41] = .error (.invalidHead 0x41) :=
  ⟨by decide, slip_reader_invalid_head 0x41 [] (by decide)⟩

/-- C2: for every offset and size, the ESP8266 ROM erase size equals the
spec's formula (with `head_sectors = min(16 - start_sector % 16, num_sectors)`
and the half-rounded erase when `num_sectors < 2 * head_sectors`); in
particular `(0x1000, 0x1000)` gives `0x1000`, `(0x1000, 0xF000)` gives
`0x8000`, and `(0x0, 0x1000)` gives `0x1000`. -/
theorem get_erase_size_matches_spec :
    (∀ offset size, ESP8266ROM.get_erase_size offset size = spec_get_erase_size offset size)
    ∧ ESP8266ROM.get_erase_size 0x1000 0x1000 = 0x1000
    ∧ ESP8266ROM.get_erase_size 0x1000 0xF000 = 0x8000
    ∧ ESP8266ROM.get_erase_size 0x0 0x1000 = 0x1000 := by
  refine ⟨fun offset size => ?_, by decide, by decide, by decide⟩
  simp only [ESP8266ROM.get_erase_size, spec_get_erase_size, ESP8266ROM.FLASH_SECTOR_SIZE,
    Nat.min_def]
  split_ifs <;> omega

/-- C3 counterexample: the ESP8266 ROM erase size at offset `0x4000`, size
`0x10000` is `0x8000`, not the `0x10000` the claim states: with 16 sectors
and `head_sectors = 12`, `num_sectors < 2 * head_sectors` holds, so the
half-round path is taken. -/
theorem get_erase_size_0x4000_0x10000_ne_claimed :
    ESP8266ROM.get_erase_size 0x4000 0x10000 = 0x8000 ∧
    ESP8266ROM.get_erase_size 0x4000 0x10000 ≠ 0x10000 := by decide

/-- C3 amended: the ESP8266 ROM erase size computed for offset `0x4000` and
size `0x10000` is `0x8000`: there are 16 sectors starting at sector 4 with
`head_sectors = 12`, and since `16 < 2 * 12` the half-round path is taken,
giving `ceil(16/2) * 0x1000 = 0x8000`. -/
theorem get_erase_size_0x4000_0x10000 :
    ESP8266ROM.get_erase_size 0x4000 0x10000 = 0x8000 ∧
    (0x10000 + 0x1000 - 1) / 0x1000 = 16 ∧ 0x4000 / 0x1000 = 4 ∧
    min (16 - 4 % 16) 16 = 12 ∧ 16 < 2 * 12 := by decide

/-- C8: for every successful response, `check_command` fails with a protocol
error when the body is shorter than the status length, fails with a remote
error carrying the status bytes when the first status byte is nonzero,
returns exactly the data prefix preceding the status bytes when that prefix
is non-empty, and otherwise returns the reply header's value field. -/
theorem check_command_matches_spec (val : Nat) (data : List Nat) (statusLen : Nat)
    (_h : 0 < statusLen) :
    check_command val data statusLen = spec_check_command val data statusLen := by
  unfold check_command spec_check_command
  by_cases hlen : data.length < statusLen
  · simp [hlen]
  · by_cases hgt : statusLen < data.length
    · have hne : data.take (data.length - statusLen) ≠ [] := by
        rw [Ne, List.take_eq_nil_iff]
        rintro (h0 | h0)
        · omega
        · rw [h0] at hgt; simp at hgt
      simp [hlen, hgt, hne]
    · have heq : data.take (data.length - statusLen) = [] := by
        have h0 : data.length - statusLen = 0 := by omega
        simp [h0]
      simp [hlen, hgt, heq]

theorem check_command_matches_spec_witness :
    0 < 2 ∧ check_command 7 [1, 2, 0, 0] 2 = spec_check_command 7 [1, 2, 0, 0] 2 :=
  ⟨by decide, check_command_matches_spec 7 [1, 2, 0, 0] 2 (by decide)⟩

/-! ## Helper lemmas: mask_to_shift -/

lemma mask_to_shift_zero (fuel : Nat) : mask_to_shift fuel 0 = none := by
  induction fuel with
  | zero => simp [mask_to_shift]
  | succ n ih => simp [mask_to_shift, ih]

lemma mask_to_shift_spec : ∀ n mask, 0 < mask → mask < 2 ^ n →
    ∃ k, mask_to_shift n mask = some k ∧ mask.testBit k = true ∧
      ∀ j < k, mask.testBit j = false := by
  intro n
  induction n with
  | zero => intro mask h1 h2; simp at h2; omega
  | succ n ih =>
    intro mask h1 h2
    by_cases hodd : mask &&& 1 = 1
    · have hodd' : mask % 2 = 1 := by rw [Nat.and_one_is_mod] at hodd; exact hodd
      refine ⟨0, ?_, ?_, ?_⟩
      · simp [mask_to_shift, hodd, hodd']
      · rw [Nat.testBit_zero]
        simp [hodd']
      · intro j hj
        omega
    · have hmod : mask % 2 = 0 := by
        rw [Nat.and_one_is_mod] at hodd
        omega
      have h1' : 0 < mask >>> 1 := by
        rw [Nat.shiftRight_one]
        omega
      have h2' : mask >>> 1 < 2 ^ n := by
        rw [Nat.shiftRight_one]
        have hp : 2 ^ (n + 1) = 2 ^ n * 2 := Nat.pow_succ 2 n
        omega
      obtain ⟨k, hk, hbit, hlow⟩ := ih (mask >>> 1) h1' h2'
      refine ⟨k + 1, ?_, ?_, ?_⟩
      · simp [mask_to_shift, hodd, hmod, hk]
      · rw [Nat.testBit_succ]
        rwa [Nat.shiftRight_one] at hbit
      · intro j hj
        match j with
        | 0 =>
          rw [Nat.testBit_zero]
          simp [hmod]
        | j + 1 =>
          rw [Nat.testBit_succ]
          have hl := hlow j (by omega)
          rwa [Nat.shiftRight_one] at hl

/-- C10: for every 32-bit mask with at least one set bit, the shift loop of
`_mask_to_shift` terminates (32 iterations of fuel suffice) and returns the
index of the least significant set bit of the mask, so that `update_reg`
writes `(old & ~mask) | ((new_val << shift) & mask)`; for `mask = 0` the loop
does not terminate within any number of iterations, so a nonzero mask is a
required precondition of `update_reg`. -/
theorem update_reg_spec :
    (∀ fuel, mask_to_shift fuel 0 = none) ∧
    ∀ old mask new_val : Nat, 0 < mask → mask < 2 ^ 32 →
      ∃ shift, mask_to_shift 32 mask = some shift ∧
        mask.testBit shift = true ∧ (∀ j < shift, mask.testBit j = false) ∧
        update_reg 32 old mask new_val =
          some (Nat.ldiff old mask ||| ((new_val <<< shift) &&& mask)) := by
  refine ⟨mask_to_shift_zero, fun old mask new_val h1 h2 => ?_⟩
  obtain ⟨k, hk, hbit, hlow⟩ := mask_to_shift_spec 32 mask h1 h2
  exact ⟨k, hk, hbit, hlow, by simp [update_reg, hk]⟩

theorem update_reg_spec_witness :
    mask_to_shift 3 0 = none ∧
    ∃ shift, mask_to_shift 32 12 = some shift ∧ (12 : Nat).testBit shift = true ∧
      (∀ j < shift, (12 : Nat).testBit j = false) ∧
      update_reg 32 0xFF 12 3 = some (Nat.ldiff 0xFF 12 ||| ((3 <<< shift) &&& 12)) :=
  ⟨update_reg_spec.1 3, update_reg_spec.2 0xFF 12 3 (by decide) (by decide)⟩

/-! ## C4: V1 image save scenario -/

/-- The single segment of the spec's V1 save scenario: address `0x40100000`,
eight zero bytes (already 4-byte aligned, so construction pads nothing). -/
def c4segment : ImageSegment := mkImageSegment 0x40100000 (List.replicate 8 0)

/-- C4 counterexample: the claimed output (16 header bytes, 8 data bytes,
then 15 bytes of zero padding before the `0xEF` checksum byte) is not what
the V1 save produces: after 24 bytes the alignment seek is 7 bytes, not 15
(15 bytes would put the checksum at offset 39, which is not the last byte of
a 16-byte aligned block). -/
theorem esp8266_save_v1_ne_claimed :
    esp8266_save_v1 0x40100000 0x02 0x20 0 [] [c4segment] ≠
      .ok ([0xE9, 0x01, 0x02, 0x20, 0x00, 0x00, 0x10, 0x40,
            0x00, 0x00, 0x10, 0x40, 0x08, 0x00, 0x00, 0x00] ++
           List.replicate 8 0 ++ List.replicate 15 0 ++ [0xEF]) := by decide

/-- C4 amended: saving the version-1 ESP8266 image with entry `0x40100000`,
one segment at `0x40100000` of eight zero bytes, flash_mode `0x02` and
size_freq `0x20` produces exactly the bytes
`E9 01 02 20 00 00 10 40 00 00 10 40 08 00 00 00`, the eight `0x00` data
bytes, then SEVEN bytes of `0x00` padding, then the checksum byte `0xEF` at
file offset 31 — the last byte of a 16-byte aligned block. -/
theorem esp8266_save_v1_scenario :
    esp8266_save_v1 0x40100000 0x02 0x20 0 [] [c4segment] =
      .ok ([0xE9, 0x01, 0x02, 0x20, 0x00, 0x00, 0x10, 0x40,
            0x00, 0x00, 0x10, 0x40, 0x08, 0x00, 0x00, 0x00] ++
           List.replicate 8 0 ++ List.replicate 7 0 ++ [0xEF]) ∧
    (8 + 8 + 8 + 7 + 1) % 16 = 0 := by decide

/-! ## C7: SHA-256 patching -/

/-- C7 counterexample: a 32-byte window that lies strictly inside the
segment's data area with all-zero existing bytes, yet the save fails with
the SHA-patch boundary error: with `file_pos = 24` (data area spans file
offsets 32 to 76) and a 44-byte all-zero segment, patching at offset 40
(window 40 to 72, strictly inside the data area at both ends) is rejected
because the code requires `patch_offset + 32 <= len(data)` measured from the
segment header, which is 8 bytes stricter at the tail. -/
theorem maybe_patch_strictly_inside_but_error :
    (24 + 8 < 40 ∧ 40 + 32 < 24 + 8 + 44 ∧
      ((List.replicate 44 0).drop (40 - 24 - 8)).take 32 = List.replicate 32 0) ∧
    maybe_patch_segment_data 40 (List.replicate 32 1) 24 (List.replicate 44 0) =
      .error (.shaPatchBoundary 40 24 44) := by decide

/-- C7 amended: with an `elf_sha256_offset` configured and a 32-byte digest,
saving a segment patches the 32 bytes at that file offset exactly when
`offset - file_pos >= 8` (not on the 8-byte header) and
`(offset - file_pos) + 32 <= len(data)` (the window fits when measured from
the header start against the data length, 8 bytes stricter at the tail than
the data area itself) and the existing 32 bytes are all zeros; in every
other case with `file_pos <= offset < file_pos + len(data)` saving fails
with a SHA-patch error; and when the offset falls outside that span the
data is written unchanged. -/
theorem maybe_patch_segment_data_spec (elfOff : Nat) (sha : List Nat) (pos : Nat)
    (data : List Nat) (hsha : sha.length = 32) :
    (pos + 8 ≤ elfOff ∧ elfOff + 32 ≤ pos + data.length ∧
        (data.drop (elfOff - pos - 8)).take 32 = List.replicate 32 0 →
      maybe_patch_segment_data elfOff sha pos data =
        .ok (data.take (elfOff - pos - 8) ++ sha ++ data.drop (elfOff - pos - 8 + 32)))
    ∧ (pos ≤ elfOff ∧ elfOff < pos + data.length →
        ¬ (pos + 8 ≤ elfOff ∧ elfOff + 32 ≤ pos + data.length ∧
            (data.drop (elfOff - pos - 8)).take 32 = List.replicate 32 0) →
        ∃ e, maybe_patch_segment_data elfOff sha pos data = .error e)
    ∧ (¬ (pos ≤ elfOff ∧ elfOff < pos + data.length) →
        maybe_patch_segment_data elfOff sha pos data = .ok data) := by
  simp only [maybe_patch_segment_data, SEG_HEADER_LEN, SHA256_DIGEST_LEN]
  refine ⟨?_, ?_, ?_⟩
  · rintro ⟨h1, h2, h3⟩
    have hgate : pos ≤ elfOff ∧ elfOff < pos + data.length := ⟨by omega, by omega⟩
    rw [if_pos hgate,
      if_neg (by omega : ¬ (elfOff - pos < 8 ∨ data.length < elfOff - pos + 32)),
      if_neg (by simpa using h3), if_neg (by simp [hsha])]
  · rintro hgate hns
    rw [if_pos hgate]
    by_cases hb : elfOff - pos < 8 ∨ data.length < elfOff - pos + 32
    · exact ⟨_, by rw [if_pos hb]⟩
    · rw [if_neg hb]
      have hz : (data.drop (elfOff - pos - 8)).take 32 ≠ List.replicate 32 0 := by
        intro hzero
        exact hns ⟨by omega, by omega, hzero⟩
      exact ⟨_, by rw [if_pos hz]⟩
  · intro hgate
    rw [if_neg hgate]

theorem maybe_patch_segment_data_spec_witness :
    (List.replicate 32 (1 : Nat)).length = 32 ∧
    ((8 + 8 ≤ 24 ∧ 24 + 32 ≤ 8 + (List.replicate 48 (0 : Nat)).length ∧
        ((List.replicate 48 (0 : Nat)).drop (24 - 8 - 8)).take 32 = List.replicate 32 0 →
      maybe_patch_segment_data 24 (List.replicate 32 1) 8 (List.replicate 48 0) =
        .ok ((List.replicate 48 (0 : Nat)).take (24 - 8 - 8) ++ List.replicate 32 1 ++
          (List.replicate 48 (0 : Nat)).drop (24 - 8 - 8 + 32)))
    ∧ (8 ≤ 24 ∧ 24 < 8 + (List.replicate 48 (0 : Nat)).length →
        ¬ (8 + 8 ≤ 24 ∧ 24 + 32 ≤ 8 + (List.replicate 48 (0 : Nat)).length ∧
            ((List.replicate 48 (0 : Nat)).drop (24 - 8 - 8)).take 32 = List.replicate 32 0) →
        ∃ e, maybe_patch_segment_data 24 (List.replicate 32 1) 8 (List.replicate 48 0) = .error e)
    ∧ (¬ (8 ≤ 24 ∧ 24 < 8 + (List.replicate 48 (0 : Nat)).length) →
        maybe_patch_segment_data 24 (List.replicate 32 1) 8 (List.replicate 48 0) =
          .ok (List.replicate 48 0))) :=
  ⟨by decide, maybe_patch_segment_data_spec 24 (List.replicate 32 1) 8 (List.replicate 48 0)
    (by decide)⟩

lemma save_segment_st_fields (eo : Nat) (sha : List Nat) (st : SaveState) (seg : ImageSegment)
    (st2 : SaveState) (h : save_segment_st eo sha st seg = .ok st2) :
    st2.placements = st.placements ∧ st2.padEvents = st.padEvents := by
  unfold save_segment_st at h
  cases hm : maybe_patch_segment_data eo sha st.pos seg.data with
  | error e => rw [hm] at h; exact Except.noConfusion h
  | ok d =>
    rw [hm] at h
    simp only [Except.ok.injEq] at h
    subst h
    exact ⟨rfl, rfl⟩

lemma save_flash_segment_st_fields (eo : Nat) (sha : List Nat) (st : SaveState)
    (seg : ImageSegment) (st2 : SaveState) (h : save_flash_segment_st eo sha st seg = .ok st2) :
    st2.placements = st.placements ∧ st2.padEvents = st.padEvents := by
  unfold save_flash_segment_st at h
  exact save_segment_st_fields eo sha st _ st2 h

lemma saveLoop_invariant (eo : Nat) (sha : List Nat) :
    ∀ fuel fl ram st st2 ram2,
      saveLoop eo sha fuel fl ram st = .ok (st2, ram2) →
      (st2.placements.map Prod.fst = st.placements.map Prod.fst ++ fl.map ImageSegment.addr) ∧
      (∀ p ∈ st2.placements, p ∈ st.placements ∨ p.2 % IROM_ALIGN = p.1 % IROM_ALIGN) ∧
      (∀ e ∈ st2.padEvents, e ∈ st.padEvents ∨
        (0 < e.padLen ∧ (e.kind = .ramSplit ↔ e.ramAvail = true ∧ SEG_HEADER_LEN < e.padLen))) := by
  intro fuel
  induction fuel with
  | zero =>
    intro fl ram st st2 ram2 h
    cases fl with
    | nil =>
      simp only [saveLoop, Except.ok.injEq, Prod.mk.injEq] at h
      obtain ⟨h1, h2⟩ := h
      subst h1
      exact ⟨by simp, fun p hp => Or.inl hp, fun e he => Or.inl he⟩
    | cons seg fl => exact Except.noConfusion h
  | succ fuel ih =>
    intro fl ram st st2 ram2 h
    cases fl with
    | nil =>
      simp only [saveLoop, Except.ok.injEq, Prod.mk.injEq] at h
      obtain ⟨h1, h2⟩ := h
      subst h1
      exact ⟨by simp, fun p hp => Or.inl hp, fun e he => Or.inl he⟩
    | cons seg fl =>
      simp only [saveLoop] at h
      split at h
      · -- a nonzero pad is needed
        rename_i hpad
        split at h
        · -- RAM segment available
          rename_i r rs
          split at h
          · -- RAM split branch
            rename_i hlen
            split at h
            · exact Except.noConfusion h
            · rename_i stx hs
              obtain ⟨hpl, hpe⟩ := save_segment_st_fields _ _ _ _ _ hs
              obtain ⟨A2, B2, C2⟩ := ih _ _ _ _ _ h
              refine ⟨by simpa [hpl] using A2, ?_, ?_⟩
              · intro p hp
                rcases B2 p hp with hin | hal
                · exact Or.inl (by rwa [hpl] at hin)
                · exact Or.inr hal
              · intro e he
                rcases C2 e he with hin | hgood
                · simp only [hpe] at hin
                  rcases List.mem_append.mp hin with hin2 | hin2
                  · exact Or.inl hin2
                  · simp only [List.mem_singleton] at hin2
                    subst hin2
                    refine Or.inr ⟨?_, ?_⟩
                    · show 0 < (get_alignment_data_needed st.pos seg.addr).toNat
                      omega
                    · exact ⟨fun _ => ⟨rfl, hlen⟩, fun _ => rfl⟩
                · exact Or.inr hgood
          · -- synthesized pad with RAM available
            rename_i hlen
            split at h
            · exact Except.noConfusion h
            · rename_i stx hs
              obtain ⟨hpl, hpe⟩ := save_segment_st_fields _ _ _ _ _ hs
              obtain ⟨A2, B2, C2⟩ := ih _ _ _ _ _ h
              refine ⟨by simpa [hpl] using A2, ?_, ?_⟩
              · intro p hp
                rcases B2 p hp with hin | hal
                · exact Or.inl (by rwa [hpl] at hin)
                · exact Or.inr hal
              · intro e he
                rcases C2 e he with hin | hgood
                · simp only [hpe] at hin
                  rcases List.mem_append.mp hin with hin2 | hin2
                  · exact Or.inl hin2
                  · simp only [List.mem_singleton] at hin2
                    subst hin2
                    refine Or.inr ⟨?_, ?_⟩
                    · show 0 < (get_alignment_data_needed st.pos seg.addr).toNat
                      omega
                    · refine ⟨fun hk => PadKind.noConfusion hk, fun hc => absurd hc.2 hlen⟩
                · exact Or.inr hgood
        · -- no RAM segment left: synthesized pad
          split at h
          · exact Except.noConfusion h
          · rename_i stx hs
            obtain ⟨hpl, hpe⟩ := save_segment_st_fields _ _ _ _ _ hs
            obtain ⟨A2, B2, C2⟩ := ih _ _ _ _ _ h
            refine ⟨by simpa [hpl] using A2, ?_, ?_⟩
            · intro p hp
              rcases B2 p hp with hin | hal
              · exact Or.inl (by rwa [hpl] at hin)
              · exact Or.inr hal
            · intro e he
              rcases C2 e he with hin | hgood
              · simp only [hpe] at hin
                rcases List.mem_append.mp hin with hin2 | hin2
                · exact Or.inl hin2
                · simp only [List.mem_singleton] at hin2
                  subst hin2
                  refine Or.inr ⟨?_, ?_⟩
                  · show 0 < (get_alignment_data_needed st.pos seg.addr).toNat
                    omega
                  · refine ⟨fun hk => PadKind.noConfusion hk, fun hc => Bool.noConfusion hc.1⟩
              · exact Or.inr hgood
      · -- no pad: flash segment write
        rename_i hpad
        split at h
        · rename_i halign
          split at h
          · exact Except.noConfusion h
          · rename_i stx hs
            obtain ⟨hpl, hpe⟩ := save_flash_segment_st_fields _ _ _ _ _ hs
            obtain ⟨A2, B2, C2⟩ := ih _ _ _ _ _ h
            refine ⟨?_, ?_, ?_⟩
            · rw [A2, hpl]
              simp
            · intro p hp
              rcases B2 p hp with hin | hal
              · rw [hpl] at hin
                rcases List.mem_append.mp hin with hin2 | hin2
                · exact Or.inl hin2
                · simp only [List.mem_singleton] at hin2
                  subst hin2
                  exact Or.inr halign
              · exact Or.inr hal
            · intro e he
              rcases C2 e he with hin | hgood
              · exact Or.inl (by rwa [hpe] at hin)
              · exact Or.inr hgood
        · exact Except.noConfusion h

lemma saveRam_fields (eo : Nat) (sha : List Nat) :
    ∀ l st st2, saveRam eo sha l st = .ok st2 →
      st2.placements = st.placements ∧ st2.padEvents = st.padEvents := by
  intro l
  induction l with
  | nil =>
    intro st st2 h
    simp only [saveRam, Except.ok.injEq] at h
    subst h
    exact ⟨rfl, rfl⟩
  | cons seg rest ih =>
    intro st st2 h
    simp only [saveRam] at h
    split at h
    · exact Except.noConfusion h
    · rename_i stx hs
      obtain ⟨h1, h2⟩ := save_segment_st_fields _ _ _ _ _ hs
      obtain ⟨h3, h4⟩ := ih _ _ h
      exact ⟨h3.trans h1, h4.trans h2⟩

lemma securePadStage_fields (eo : Nat) (sha : List Nat) (sp : SecurePad) (ad : Bool)
    (st st2 : SaveState) (h : securePadStage eo sha sp ad st = .ok st2) :
    st2.placements = st.placements ∧ st2.padEvents = st.padEvents := by
  unfold securePadStage at h
  split at h
  · simp only [Except.ok.injEq] at h
    subst h
    exact ⟨rfl, rfl⟩
  · split at h
    · exact Except.noConfusion h
    · exact save_segment_st_fields _ _ _ _ _ h

lemma finishSave_fields (sp : SecurePad) (ad : Bool) (f : List Nat → List Nat)
    (st : SaveState) (out : Save32Out) (h : finishSave sp ad f st = .ok out) :
    out.placements = st.placements ∧ out.padEvents = st.padEvents := by
  simp only [finishSave] at h
  split at h
  · exact Except.noConfusion h
  · simp only [Except.ok.injEq] at h
    subst h
    exact ⟨rfl, rfl⟩

/-- C5: in every image produced by the newer-variant save routine, every
segment whose load address lies in the chip's IROM or DROM ranges is placed
so that the file offset of its data satisfies
`file_offset mod 0x10000 = load_addr mod 0x10000`: the recorded placements
cover exactly the flash-mapped segments (the address-sorted segments whose
addresses fall in the chip's flash maps) and each placement is aligned. -/
theorem esp32_save_flash_mapping_alignment (chip : Chip) (entry flashMode sizeFreq : Nat)
    (ext : ExtHeader) (securePad : SecurePad) (elfShaOff : Nat) (elfSha : List Nat)
    (sha256 : List Nat → List Nat) (fuel : Nat) (segments : List ImageSegment)
    (out : Save32Out)
    (h : ESP32FirmwareImage_save chip entry flashMode sizeFreq ext securePad elfShaOff
      elfSha sha256 fuel segments = .ok out) :
    out.placements.map Prod.fst =
      ((sortByAddr segments).filter (fun s => is_flash_addr chip s.addr)).map ImageSegment.addr ∧
    ∀ p ∈ out.placements, p.2 % 65536 = p.1 % 65536 := by
  simp only [ESP32FirmwareImage_save] at h
  split at h
  · exact Except.noConfusion h
  · split at h
    · exact Except.noConfusion h
    · rename_i st1 ramRest hloop
      split at h
      · exact Except.noConfusion h
      · rename_i st2 hram
        split at h
        · exact Except.noConfusion h
        · rename_i st3 hsp
          obtain ⟨hf1, hf2⟩ := finishSave_fields _ _ _ _ _ h
          obtain ⟨hp1, hp2⟩ := securePadStage_fields _ _ _ _ _ _ hsp
          obtain ⟨hr1, hr2⟩ := saveRam_fields _ _ _ _ _ hram
          obtain ⟨A, B, C⟩ := saveLoop_invariant _ _ _ _ _ _ _ _ hloop
          constructor
          · rw [hf1, hp1, hr1]
            simpa using A
          · intro p hp
            rw [hf1, hp1, hr1] at hp
            rcases B p hp with hin | hal
            · simp at hin
            · simpa [IROM_ALIGN] using hal

/-- C6 amended: during newer-variant image save, for each flash-mapped
segment needing a nonzero pad, the pad is filled by splitting the front of a
RAM segment exactly when the needed pad is STRICTLY GREATER than
`SEG_HEADER_LEN` (8) bytes and at least one RAM segment remains; in every
other nonzero-pad case (including a pad of exactly 8 bytes with RAM
available) a zero-data padding segment at address 0 is synthesized. -/
theorem esp32_save_pad_policy (chip : Chip) (entry flashMode sizeFreq : Nat)
    (ext : ExtHeader) (securePad : SecurePad) (elfShaOff : Nat) (elfSha : List Nat)
    (sha256 : List Nat → List Nat) (fuel : Nat) (segments : List ImageSegment)
    (out : Save32Out)
    (h : ESP32FirmwareImage_save chip entry flashMode sizeFreq ext securePad elfShaOff
      elfSha sha256 fuel segments = .ok out) :
    ∀ e ∈ out.padEvents, 0 < e.padLen ∧
      (e.kind = .ramSplit ↔ e.ramAvail = true ∧ 8 < e.padLen) := by
  simp only [ESP32FirmwareImage_save] at h
  split at h
  · exact Except.noConfusion h
  · split at h
    · exact Except.noConfusion h
    · rename_i st1 ramRest hloop
      split at h
      · exact Except.noConfusion h
      · rename_i st2 hram
        split at h
        · exact Except.noConfusion h
        · rename_i st3 hsp
          obtain ⟨hf1, hf2⟩ := finishSave_fields _ _ _ _ _ h
          obtain ⟨hp1, hp2⟩ := securePadStage_fields _ _ _ _ _ _ hsp
          obtain ⟨hr1, hr2⟩ := saveRam_fields _ _ _ _ _ hram
          obtain ⟨A, B, C⟩ := saveLoop_invariant _ _ _ _ _ _ _ _ hloop
          intro e he
          rw [hf2, hp2, hr2] at he
          rcases C e he with hin | hgood
          · simp at hin
          · exact ⟨hgood.1, hgood.2⟩

lemma maybe_patch_zero_off (sha : List Nat) (pos : Nat) (data : List Nat) (h : 0 < pos) :
    maybe_patch_segment_data 0 sha pos data = .ok data := by
  unfold maybe_patch_segment_data
  rw [if_neg]
  rintro ⟨h1, _⟩
  omega

lemma save_segment_st_zero_off (sha : List Nat) (st : SaveState) (seg : ImageSegment)
    (pos n : Nat) (hpos : st.pos = pos) (hlen : seg.data.length = n) (h : 0 < pos) :
    save_segment_st 0 sha st seg = .ok { st with
      pos := pos + 8 + n,
      out := st.out ++ u32le seg.addr ++ u32le n ++ seg.data,
      checksum := espChecksum seg.data st.checksum,
      totalSegments := st.totalSegments + 1 } := by
  unfold save_segment_st
  rw [maybe_patch_zero_off sha st.pos seg.data (hpos ▸ h)]
  simp only [hlen, hpos]

lemma save_flash_segment_st_zero_off_no_ext (sha : List Nat) (st : SaveState)
    (seg : ImageSegment) (pos n : Nat) (hpos : st.pos = pos) (hlen : seg.data.length = n)
    (h : 0 < pos) (h2 : ¬ (pos + n + SEG_HEADER_LEN) % IROM_ALIGN < 0x24) :
    save_flash_segment_st 0 sha st seg = .ok { st with
      pos := pos + 8 + n,
      out := st.out ++ u32le seg.addr ++ u32le n ++ seg.data,
      checksum := espChecksum seg.data st.checksum,
      totalSegments := st.totalSegments + 1 } := by
  simp only [save_flash_segment_st, hpos, hlen]
  rw [if_neg h2]
  exact save_segment_st_zero_off sha st seg pos n hpos hlen h

lemma save_flash_segment_st_zero_off_ext (sha : List Nat) (st : SaveState)
    (seg : ImageSegment) (pos n : Nat) (hpos : st.pos = pos) (hlen : seg.data.length = n)
    (h : 0 < pos) (h2 : (pos + n + SEG_HEADER_LEN) % IROM_ALIGN < 0x24) :
    save_flash_segment_st 0 sha st seg = .ok { st with
      pos := pos + 8 + (n + (0x24 - (pos + n + SEG_HEADER_LEN) % IROM_ALIGN)),
      out := st.out ++ u32le seg.addr ++
        u32le (n + (0x24 - (pos + n + SEG_HEADER_LEN) % IROM_ALIGN)) ++
        (seg.data ++ List.replicate (0x24 - (pos + n + SEG_HEADER_LEN) % IROM_ALIGN) 0),
      checksum := espChecksum
        (seg.data ++ List.replicate (0x24 - (pos + n + SEG_HEADER_LEN) % IROM_ALIGN) 0)
        st.checksum,
      totalSegments := st.totalSegments + 1 } := by
  simp only [save_flash_segment_st, hpos, hlen]
  rw [if_pos h2]
  rw [save_segment_st_zero_off sha st _ pos
    (n + (0x24 - (pos + n + SEG_HEADER_LEN) % IROM_ALIGN)) hpos
    (by simp only [List.length_append, List.length_replicate, hlen]) h]

lemma saveLoop_nil_eq (eo : Nat) (sha : List Nat) (fuel : Nat) (ram : List ImageSegment)
    (st : SaveState) : saveLoop eo sha fuel [] ram st = .ok (st, ram) := by
  cases fuel <;> rfl

lemma saveLoop_cons_eq (eo : Nat) (sha : List Nat) (fuel : Nat) (seg : ImageSegment)
    (fl ram : List ImageSegment) (st : SaveState) :
    saveLoop eo sha (fuel + 1) (seg :: fl) ram st =
    (let padI := get_alignment_data_needed st.pos seg.addr
    if 0 < padI then
      let pad_len := padI.toNat
      match ram with
      | r :: rs =>
        if SEG_HEADER_LEN < pad_len then
          let (padSeg, rest) := split_image r pad_len
          let ram2 := if rest.data.length = 0 then rs else rest :: rs
          match save_segment_st eo sha st padSeg with
          | .error e => .error e
          | .ok st2 =>
            saveLoop eo sha fuel (seg :: fl) ram2
              { st2 with padEvents := st2.padEvents ++ [⟨pad_len, true, .ramSplit⟩] }
        else
          match save_segment_st eo sha st ⟨0, List.replicate pad_len 0⟩ with
          | .error e => .error e
          | .ok st2 =>
            saveLoop eo sha fuel (seg :: fl) (r :: rs)
              { st2 with padEvents := st2.padEvents ++ [⟨pad_len, true, .synthPad⟩] }
      | [] =>
        match save_segment_st eo sha st ⟨0, List.replicate pad_len 0⟩ with
        | .error e => .error e
        | .ok st2 =>
          saveLoop eo sha fuel (seg :: fl) []
            { st2 with padEvents := st2.padEvents ++ [⟨pad_len, false, .synthPad⟩] }
    else
      if (st.pos + 8) % IROM_ALIGN = seg.addr % IROM_ALIGN then
        match save_flash_segment_st eo sha st seg with
        | .error e => .error e
        | .ok st2 =>
          saveLoop eo sha fuel fl ram
            { st2 with placements := st2.placements ++ [(seg.addr, st.pos + 8)] }
      else .error .alignAssert) := rfl

lemma except_map_eq_ok {α β ε : Type} (f : α → β) (x : Except ε α) (b : β)
    (h : x.map f = .ok b) : ∃ a, x = .ok a ∧ f a = b := by
  cases x with
  | error e => simp [Except.map] at h
  | ok a =>
    refine ⟨a, rfl, ?_⟩
    simpa [Except.map] using h

lemma c6_loop (sha : List Nat) (ck0 : Nat) (out0 : List Nat) :
    (saveLoop 0 sha 10
      [⟨0x3F400020, List.replicate 65480 0⟩, ⟨0x3F420000, List.replicate 8 0⟩]
      [⟨0x40080000, List.replicate 16 0⟩]
      ⟨24, ck0, out0, [], [], 0⟩).map
        (fun x => (x.1.pos, x.1.placements, x.1.padEvents, x.2)) =
    .ok (65572, [(0x3F400020, 32), (0x3F420000, 65536)],
         [⟨8, true, PadKind.synthPad⟩], [⟨0x40080000, List.replicate 16 0⟩]) := by
  show (saveLoop 0 sha (7 + 1 + 1 + 1) _ _ _).map _ = _
  rw [saveLoop_cons_eq]
  simp only []
  rw [show get_alignment_data_needed 24 1061158944 = 0 from by decide]
  rw [if_neg (by decide : ¬ (0:Int) < 0)]
  rw [if_pos (by decide : (24 + 8) % IROM_ALIGN = 1061158944 % IROM_ALIGN)]
  rw [save_flash_segment_st_zero_off_no_ext sha _ _ 24 65480 rfl
    (List.length_replicate 65480 0) (by decide) (by decide)]
  simp only [List.nil_append]
  -- iteration 2: segment B needs a pad of exactly 8 with a RAM segment available;
  -- a zero segment is synthesized
  rw [show (7 + 2 : Nat) = 7 + 1 + 1 from by decide]
  rw [saveLoop_cons_eq]
  simp only []
  rw [show get_alignment_data_needed (24 + 8 + 65480) 1061289984 = 8 from by decide]
  rw [if_pos (by decide : (0:Int) < 8)]
  rw [show ((8:Int)).toNat = 8 from rfl]
  rw [if_neg (by decide : ¬ SEG_HEADER_LEN < 8)]
  rw [save_segment_st_zero_off sha _ _ (24 + 8 + 65480) 8 rfl
    (List.length_replicate 8 0) (by decide)]
  simp only [List.nil_append]
  -- iteration 3: segment B is now aligned; written with the 0x24-byte tail workaround pad
  rw [saveLoop_cons_eq]
  simp only []
  rw [show get_alignment_data_needed (24 + 8 + 65480 + 8 + 8) 1061289984 = 0 from by decide]
  rw [if_neg (by decide : ¬ (0:Int) < 0)]
  rw [if_pos (by decide :
    (24 + 8 + 65480 + 8 + 8 + 8) % IROM_ALIGN = 1061289984 % IROM_ALIGN)]
  rw [save_flash_segment_st_zero_off_ext sha _ _ (24 + 8 + 65480 + 8 + 8) 8 rfl
    (List.length_replicate 8 0) (by decide) (by decide)]
  simp only [List.cons_append, List.nil_append]
  rw [saveLoop_nil_eq]
  simp only [Except.map]
  decide

lemma saveRam_one (sha : List Nat) (st : SaveState) (seg : ImageSegment) (pos n : Nat)
    (hpos : st.pos = pos) (hlen : seg.data.length = n) (h : 0 < pos) :
    saveRam 0 sha [seg] st = .ok { st with
      pos := pos + 8 + n,
      out := st.out ++ u32le seg.addr ++ u32le n ++ seg.data,
      checksum := espChecksum seg.data st.checksum,
      totalSegments := st.totalSegments + 1 } := by
  simp only [saveRam]
  rw [save_segment_st_zero_off sha st seg pos n hpos hlen h]

lemma securePadStage_off (eo : Nat) (sha : List Nat) (ad : Bool) (st : SaveState) :
    securePadStage eo sha SecurePad.off ad st = .ok st := rfl

lemma finishSave_off_ex (ad : Bool) (f : List Nat → List Nat) (st : SaveState) :
    ∃ bytes, finishSave SecurePad.off ad f st =
      .ok ⟨bytes, st.placements, st.padEvents⟩ := by
  simp only [finishSave]
  rw [if_neg (fun hc => hc.1 rfl)]
  exact ⟨_, rfl⟩

lemma save32_of_stages (chip : Chip) (entry flashMode sizeFreq : Nat) (ext : ExtHeader)
    (securePad : SecurePad) (eo : Nat) (sha : List Nat) (sha256 : List Nat → List Nat)
    (fuel : Nat) (segments : List ImageSegment) (st1 : SaveState) (ram1 : List ImageSegment)
    (st2 st3 : SaveState) (out : Save32Out)
    (hdup : hasDuplicateMapping
      ((sortByAddr segments).filter (fun s => is_flash_addr chip s.addr)) = none)
    (hloop : saveLoop eo sha fuel
      ((sortByAddr segments).filter (fun s => is_flash_addr chip s.addr))
      ((sortByAddr segments).filter (fun s => ¬ is_flash_addr chip s.addr))
      ⟨24, ESP_CHECKSUM_MAGIC,
        write_common_header segments.length flashMode sizeFreq entry ++
          save_extended_header ext, [], [], 0⟩ = .ok (st1, ram1))
    (hram : saveRam eo sha ram1 st1 = .ok st2)
    (hsp : securePadStage eo sha securePad ext.append_digest st2 = .ok st3)
    (hfin : finishSave securePad ext.append_digest sha256 st3 = .ok out) :
    ESP32FirmwareImage_save chip entry flashMode sizeFreq ext securePad eo sha sha256 fuel
      segments = .ok out := by
  simp only [ESP32FirmwareImage_save]
  rw [hdup]
  simp only []
  rw [hloop]
  simp only []
  rw [hram]
  simp only []
  rw [hsp]
  simp only []
  exact hfin

/-- C6 counterexample: a save whose second flash segment needs a pad of
exactly 8 bytes while a RAM segment is still available (first flash segment
of 65480 bytes at `0x3F400020`, second at `0x3F420000`, one 16-byte RAM
segment at `0x40080000`): the claim says a pad of at least 8 bytes with RAM
available is filled from the RAM segment, but the produced image records a
synthesized zero-data pad event of length 8 instead, because the code
requires the pad to exceed 8 bytes before splitting a RAM segment. -/
theorem esp32_pad_is_strict :
    (ESP32FirmwareImage_save ESP32ROM_chip 0x400d0000 2 0x20
        ⟨0xEE, 0, 0, 0, 0, 0, 0, 0, 0, false⟩ .off 0 [] (fun _ => []) 10
        [⟨0x3F400020, List.replicate 65480 0⟩, ⟨0x3F420000, List.replicate 8 0⟩,
         ⟨0x40080000, List.replicate 16 0⟩]).map Save32Out.padEvents =
      .ok [⟨8, true, PadKind.synthPad⟩] := by
  have hfl : List.filter (fun s => is_flash_addr ESP32ROM_chip s.addr)
      (sortByAddr [⟨1061158944, List.replicate 65480 0⟩, ⟨1061289984, List.replicate 8 0⟩,
        ⟨1074266112, List.replicate 16 0⟩]) =
      [⟨1061158944, List.replicate 65480 0⟩, ⟨1061289984, List.replicate 8 0⟩] := rfl
  have hrm : List.filter (fun s => decide (¬ is_flash_addr ESP32ROM_chip s.addr = true))
      (sortByAddr [⟨1061158944, List.replicate 65480 0⟩, ⟨1061289984, List.replicate 8 0⟩,
        ⟨1074266112, List.replicate 16 0⟩]) =
      [⟨1074266112, List.replicate 16 0⟩] := rfl
  obtain ⟨⟨st1, ram1⟩, hloop, hproj⟩ := except_map_eq_ok _ _ _
    (c6_loop [] ESP_CHECKSUM_MAGIC
      (write_common_header
        [(⟨1061158944, List.replicate 65480 0⟩ : ImageSegment),
         ⟨1061289984, List.replicate 8 0⟩, ⟨1074266112, List.replicate 16 0⟩].length
        2 32 1074593792 ++
       save_extended_header ⟨238, 0, 0, 0, 0, 0, 0, 0, 0, false⟩))
  simp only [Prod.mk.injEq] at hproj
  obtain ⟨hpos1, hplc1, hpe1, hram1⟩ := hproj
  subst hram1
  have hdup : hasDuplicateMapping
      (List.filter (fun s => is_flash_addr ESP32ROM_chip s.addr)
        (sortByAddr [⟨1061158944, List.replicate 65480 0⟩, ⟨1061289984, List.replicate 8 0⟩,
          ⟨1074266112, List.replicate 16 0⟩])) = none := by
    rw [hfl]
    exact rfl
  have hloop2 : saveLoop 0 [] 10
      (List.filter (fun s => is_flash_addr ESP32ROM_chip s.addr)
        (sortByAddr [⟨1061158944, List.replicate 65480 0⟩, ⟨1061289984, List.replicate 8 0⟩,
          ⟨1074266112, List.replicate 16 0⟩]))
      (List.filter (fun s => decide (¬ is_flash_addr ESP32ROM_chip s.addr = true))
        (sortByAddr [⟨1061158944, List.replicate 65480 0⟩, ⟨1061289984, List.replicate 8 0⟩,
          ⟨1074266112, List.replicate 16 0⟩]))
      ⟨24, ESP_CHECKSUM_MAGIC,
        write_common_header
          [(⟨1061158944, List.replicate 65480 0⟩ : ImageSegment),
           ⟨1061289984, List.replicate 8 0⟩, ⟨1074266112, List.replicate 16 0⟩].length
          2 32 1074593792 ++
        save_extended_header ⟨238, 0, 0, 0, 0, 0, 0, 0, 0, false⟩, [], [], 0⟩ =
      .ok (st1, [⟨1074266112, List.replicate 16 0⟩]) := by
    rw [hfl, hrm]
    exact hloop
  have hram2 := saveRam_one [] st1 ⟨1074266112, List.replicate 16 0⟩ 65572 16 hpos1
    (List.length_replicate 16 0) (by decide)
  have hsp := securePadStage_off 0 []
    ((⟨238, 0, 0, 0, 0, 0, 0, 0, 0, false⟩ : ExtHeader).append_digest)
    { st1 with
      pos := 65572 + 8 + 16,
      out := st1.out ++ u32le 1074266112 ++ u32le 16 ++ List.replicate 16 0,
      checksum := espChecksum (List.replicate 16 0) st1.checksum,
      totalSegments := st1.totalSegments + 1 }
  obtain ⟨bytes3, hfin⟩ := finishSave_off_ex
    ((⟨238, 0, 0, 0, 0, 0, 0, 0, 0, false⟩ : ExtHeader).append_digest) (fun x => [])
    { st1 with
      pos := 65572 + 8 + 16,
      out := st1.out ++ u32le 1074266112 ++ u32le 16 ++ List.replicate 16 0,
      checksum := espChecksum (List.replicate 16 0) st1.checksum,
      totalSegments := st1.totalSegments + 1 }
  rw [save32_of_stages ESP32ROM_chip 1074593792 2 32 ⟨238, 0, 0, 0, 0, 0, 0, 0, 0, false⟩
    SecurePad.off 0 [] (fun x => []) 10
    [⟨1061158944, List.replicate 65480 0⟩, ⟨1061289984, List.replicate 8 0⟩,
     ⟨1074266112, List.replicate 16 0⟩]
    st1 [⟨1074266112, List.replicate 16 0⟩] _ _ _ hdup hloop2 hram2 hsp hfin]
  simp only [Except.map]
  show Except.ok st1.padEvents = _
  rw [hpe1]

theorem esp32_save_flash_mapping_alignment_witness :
    ([((0x3F400020 : Nat), (32 : Nat))].map Prod.fst =
      ((sortByAddr [mkImageSegment 0x3F400020 (List.replicate 8 0)]).filter
        (fun s => is_flash_addr ESP32ROM_chip s.addr)).map ImageSegment.addr ∧
    ∀ p ∈ [((0x3F400020 : Nat), (32 : Nat))], p.2 % 65536 = p.1 % 65536) :=
  esp32_save_flash_mapping_alignment ESP32ROM_chip 0x400d0000 2 0x20
    ⟨0xEE, 0, 0, 0, 0, 0, 0, 0, 0, false⟩ .off 0 [] (fun _ => []) 10
    [mkImageSegment 0x3F400020 (List.replicate 8 0)]
    ⟨[233, 1, 2, 32, 0, 0, 13, 64, 238, 0, 0, 0, 0, 0, 0, 0, 0, 0, 0, 0, 0, 0, 0, 0,
      32, 0, 64, 63, 8, 0, 0, 0, 0, 0, 0, 0, 0, 0, 0, 0, 0, 0, 0, 0, 0, 0, 0, 239],
     [(0x3F400020, 32)], []⟩ (by decide)

theorem esp32_save_pad_policy_witness :
    0 < (8 : Nat) ∧
      (PadKind.synthPad = PadKind.ramSplit ↔ (true = true ∧ 8 < (8 : Nat))) := by
  have hfl : List.filter (fun s => is_flash_addr ESP32ROM_chip s.addr)
      (sortByAddr [⟨1061158944, List.replicate 65480 0⟩, ⟨1061289984, List.replicate 8 0⟩,
        ⟨1074266112, List.replicate 16 0⟩]) =
      [⟨1061158944, List.replicate 65480 0⟩, ⟨1061289984, List.replicate 8 0⟩] := rfl
  have hrm : List.filter (fun s => decide (¬ is_flash_addr ESP32ROM_chip s.addr = true))
      (sortByAddr [⟨1061158944, List.replicate 65480 0⟩, ⟨1061289984, List.replicate 8 0⟩,
        ⟨1074266112, List.replicate 16 0⟩]) =
      [⟨1074266112, List.replicate 16 0⟩] := rfl
  obtain ⟨⟨st1, ram1⟩, hloop, hproj⟩ := except_map_eq_ok _ _ _
    (c6_loop [] ESP_CHECKSUM_MAGIC
      (write_common_header
        [(⟨1061158944, List.replicate 65480 0⟩ : ImageSegment),
         ⟨1061289984, List.replicate 8 0⟩, ⟨1074266112, List.replicate 16 0⟩].length
        2 32 1074593792 ++
       save_extended_header ⟨238, 0, 0, 0, 0, 0, 0, 0, 0, false⟩))
  simp only [Prod.mk.injEq] at hproj
  obtain ⟨hpos1, hplc1, hpe1, hram1⟩ := hproj
  subst hram1
  have hdup : hasDuplicateMapping
      (List.filter (fun s => is_flash_addr ESP32ROM_chip s.addr)
        (sortByAddr [⟨1061158944, List.replicate 65480 0⟩, ⟨1061289984, List.replicate 8 0⟩,
          ⟨1074266112, List.replicate 16 0⟩])) = none := by
    rw [hfl]
    exact rfl
  have hloop2 : saveLoop 0 [] 10
      (List.filter (fun s => is_flash_addr ESP32ROM_chip s.addr)
        (sortByAddr [⟨1061158944, List.replicate 65480 0⟩, ⟨1061289984, List.replicate 8 0⟩,
          ⟨1074266112, List.replicate 16 0⟩]))
      (List.filter (fun s => decide (¬ is_flash_addr ESP32ROM_chip s.addr = true))
        (sortByAddr [⟨1061158944, List.replicate 65480 0⟩, ⟨1061289984, List.replicate 8 0⟩,
          ⟨1074266112, List.replicate 16 0⟩]))
      ⟨24, ESP_CHECKSUM_MAGIC,
        write_common_header
          [(⟨1061158944, List.replicate 65480 0⟩ : ImageSegment),
           ⟨1061289984, List.replicate 8 0⟩, ⟨1074266112, List.replicate 16 0⟩].length
          2 32 1074593792 ++
        save_extended_header ⟨238, 0, 0, 0, 0, 0, 0, 0, 0, false⟩, [], [], 0⟩ =
      .ok (st1, [⟨1074266112, List.replicate 16 0⟩]) := by
    rw [hfl, hrm]
    exact hloop
  have hram2 := saveRam_one [] st1 ⟨1074266112, List.replicate 16 0⟩ 65572 16 hpos1
    (List.length_replicate 16 0) (by decide)
  have hsp := securePadStage_off 0 []
    ((⟨238, 0, 0, 0, 0, 0, 0, 0, 0, false⟩ : ExtHeader).append_digest)
    { st1 with
      pos := 65572 + 8 + 16,
      out := st1.out ++ u32le 1074266112 ++ u32le 16 ++ List.replicate 16 0,
      checksum := espChecksum (List.replicate 16 0) st1.checksum,
      totalSegments := st1.totalSegments + 1 }
  obtain ⟨bytes3, hfin⟩ := finishSave_off_ex
    ((⟨238, 0, 0, 0, 0, 0, 0, 0, 0, false⟩ : ExtHeader).append_digest) (fun x => [])
    { st1 with
      pos := 65572 + 8 + 16,
      out := st1.out ++ u32le 1074266112 ++ u32le 16 ++ List.replicate 16 0,
      checksum := espChecksum (List.replicate 16 0) st1.checksum,
      totalSegments := st1.totalSegments + 1 }
  have hsave := save32_of_stages ESP32ROM_chip 1074593792 2 32
    ⟨238, 0, 0, 0, 0, 0, 0, 0, 0, false⟩ SecurePad.off 0 [] (fun x => []) 10
    [⟨1061158944, List.replicate 65480 0⟩, ⟨1061289984, List.replicate 8 0⟩,
     ⟨1074266112, List.replicate 16 0⟩]
    st1 [⟨1074266112, List.replicate 16 0⟩] _ _ _ hdup hloop2 hram2 hsp hfin
  have hmem : (⟨8, true, PadKind.synthPad⟩ : PadEvent) ∈ st1.padEvents := by
    rw [hpe1]
    exact List.mem_singleton.mpr rfl
  exact esp32_save_pad_policy ESP32ROM_chip 1074593792 2 32
    ⟨238, 0, 0, 0, 0, 0, 0, 0, 0, false⟩ SecurePad.off 0 [] (fun x => []) 10
    [⟨1061158944, List.replicate 65480 0⟩, ⟨1061289984, List.replicate 8 0⟩,
     ⟨1074266112, List.replicate 16 0⟩] _ hsave ⟨8, true, PadKind.synthPad⟩ hmem

end Esptool
